import Mathlib

/-!
Verification of the StudySpark quiz core: a shallow embedding of the quiz
session state machine (`QuizDisplay`), the client-side scoring computation
(`calculateScore` and the results view), the server's markdown-fence
sanitizer, the HTTP request validation of the proxy endpoints
(`api/server.js`), and the topic-coverage tracker (`updateCoveredTopics`),
together with theorems about them.

JavaScript `Record` objects (`selectedAnswers : Record<number, string>`,
`covered : Record<string, boolean>`) are embedded as association lists with
the key set kept duplicate-free by the update operation, which mirrors the
JS object-spread `{...prev, [k]: v}` (replace the value in place if the key
exists, append otherwise). Strings handled character-wise by the sanitizer
are embedded as `List Char`.
-/

namespace StudySpark

/-- Association-list lookup, embedding JS property access `obj[k]`
(`undefined` becomes `none`). -/
def lookupEntry {α β : Type} [DecidableEq α] : List (α × β) → α → Option β
  | [], _ => none
  | p :: rest, k => if p.1 = k then some p.2 else lookupEntry rest k

/-- Association-list update, embedding the JS object spread
`{...prev, [k]: v}`: replace in place when the key is present, append
otherwise. -/
def setEntry {α β : Type} [DecidableEq α] (l : List (α × β)) (k : α) (v : β) :
    List (α × β) :=
  if l.any (fun p => p.1 == k) then l.map (fun p => if p.1 = k then (k, v) else p)
  else l ++ [(k, v)]

/-- The four answer options of a question (`options: {A, B, C, D}`). -/
structure QOptions where
  A : String
  B : String
  C : String
  D : String
deriving DecidableEq

/-- `QuizQuestion` from `QuizGenerator.tsx`. The TS type restricts
`correct_answer` to `"A" | "B" | "C" | "D"`; the code only ever compares it
to strings with `===`, so it is embedded as `String`. -/
structure QuizQuestion where
  topic : String
  question : String
  options : QOptions
  correct_answer : String
  explanation : String
deriving DecidableEq

/-- The React state of the `QuizDisplay` component: `questions` (prop),
`currentQuestion`, `selectedAnswers`, `showResults`, `isCompleted`. -/
structure QuizState where
  questions : List QuizQuestion
  currentQuestion : Nat
  selectedAnswers : List (Nat × String)
  showResults : Bool
  isCompleted : Bool
deriving DecidableEq

/-- Initial `useState` values of `QuizDisplay` for a given question prop:
`currentQuestion = 0`, `selectedAnswers = {}`, `showResults = false`,
`isCompleted = false`. -/
def startQuiz (qs : List QuizQuestion) : QuizState :=
  { questions := qs
    currentQuestion := 0
    selectedAnswers := []
    showResults := false
    isCompleted := false }

/-- `selectAnswer` of `QuizDisplay`: returns unchanged if `isCompleted`,
otherwise `selectedAnswers[currentQuestion] = answer` via object spread. -/
def selectAnswer (s : QuizState) (answer : String) : QuizState :=
  if s.isCompleted then s
  else { s with selectedAnswers := setEntry s.selectedAnswers s.currentQuestion answer }

/-- `nextQuestion` of `QuizDisplay`: `if (currentQuestion < questions.length - 1)`
increment the cursor, else set `isCompleted` and `showResults`. In JS an
empty list gives `length - 1 = -1` and the guard fails, exactly as
truncated `Nat` subtraction behaves here. -/
def nextQuestion (s : QuizState) : QuizState :=
  if s.currentQuestion < s.questions.length - 1 then
    { s with currentQuestion := s.currentQuestion + 1 }
  else
    { s with isCompleted := true, showResults := true }

/-- `prevQuestion` of `QuizDisplay`: decrement the cursor when it is
positive; no completion check. -/
def prevQuestion (s : QuizState) : QuizState :=
  if s.currentQuestion > 0 then { s with currentQuestion := s.currentQuestion - 1 }
  else s

/-- `resetQuiz` of `QuizDisplay`: back to the initial state (the `onReset`
callback to the parent is outside the component's own state). -/
def resetQuiz (s : QuizState) : QuizState :=
  { s with
      currentQuestion := 0
      selectedAnswers := []
      showResults := false
      isCompleted := false }

/-- The per-entry test of `calculateScore`:
`questions[parseInt(questionIndex)]?.correct_answer === answer`. An
out-of-range index gives `undefined?.correct_answer === answer`, i.e.
`false`. -/
def answerMatches (qs : List QuizQuestion) (p : Nat × String) : Bool :=
  (qs[p.1]?).map QuizQuestion.correct_answer == some p.2

/-- `calculateScore` of `QuizDisplay`: a fold over
`Object.entries(selectedAnswers)` counting entries whose answer equals the
question's `correct_answer`. -/
def calculateScore (qs : List QuizQuestion) (m : List (Nat × String)) : Nat :=
  m.foldl (fun score p => if answerMatches qs p then score + 1 else score) 0

/-- The percentage shown by the `QuizDisplay` results view:
`Math.round((score / questions.length) * 100)`. JS `Math.round` rounds
half toward positive infinity, as does `round` on `ℚ`. -/
def resultsPercentage (qs : List QuizQuestion) (m : List (Nat × String)) : ℤ :=
  round (((calculateScore qs m : ℚ) / (qs.length : ℚ)) * 100)

/-- The per-question correctness of the results view:
`userAnswer = selectedAnswers[index]; isCorrect = userAnswer === question.correct_answer`
(`undefined === ...` is `false`). -/
def isCorrectAt (qs : List QuizQuestion) (m : List (Nat × String)) (i : Nat) : Bool :=
  match lookupEntry m i with
  | none => false
  | some a => some a == (qs[i]?).map QuizQuestion.correct_answer

/-- JS `\s` (the whitespace class of `String.prototype.trim` and regex),
restricted to the ASCII range that the embedded strings use. -/
def jsWS (c : Char) : Bool :=
  c == ' ' || c == '\t' || c == '\n' || c == '\r' || c == '\x0b' || c == '\x0c'

/-- Left half of JS `trim()`. -/
def trimL (l : List Char) : List Char := l.dropWhile jsWS

/-- Right half of JS `trim()`. -/
def trimR (l : List Char) : List Char := (l.reverse.dropWhile jsWS).reverse

/-- JS `String.prototype.trim`. -/
def trimChars (l : List Char) : List Char := trimR (trimL l)

/-- Drop the last `n` characters (`replace(/...$/, "")` of a fixed-length
match). -/
def dropRightN (l : List Char) (n : Nat) : List Char := l.take (l.length - n)

/-- The markdown-fence sanitizer of `api/server.js` (used verbatim by the
generate-quiz, quiz-feedback and list-topics routes):
`jsonText.trim()`, then if it `startsWith("```")`, apply
`.replace(/^```json\s*/, "").replace(/```$/, "").trim()`.
The first replace removes the opening fence only when it is tagged
exactly `json` (plus any following whitespace); the second removes a
trailing `` ``` `` when the text ends with one. -/
def sanitize (raw : List Char) : List Char :=
  let s := trimChars raw
  if ("```".toList).isPrefixOf s then
    let s1 := if ("```json".toList).isPrefixOf s then (s.drop 7).dropWhile jsWS else s
    let s2 := if ("```".toList).isSuffixOf s1 then dropRightN s1 3 else s1
    trimChars s2
  else s

/-- Outcome of the validation prologue of a proxy route: either an early
`res.status(400).json({error})` or fall-through to the gateway call. -/
inductive RouteStep where
  | reject (status : Nat) (error : String)
  | callGateway
deriving DecidableEq

/-- Validation of `/api/generate-quiz`:
`if (!notes || typeof notes !== "string" || notes.trim().length === 0)`.
A missing or non-string field is `none`; `""` is falsy. -/
def generateQuizValidate (notes : Option (List Char)) : RouteStep :=
  match notes with
  | none => .reject 400 "Notes content is required."
  | some s =>
    if s = [] ∨ trimChars s = [] then .reject 400 "Notes content is required."
    else .callGateway

/-- Validation of `/api/summary` (same shape as generate-quiz). -/
def summaryValidate (text : Option (List Char)) : RouteStep :=
  match text with
  | none => .reject 400 "Text content is required for summary."
  | some s =>
    if s = [] ∨ trimChars s = [] then .reject 400 "Text content is required for summary."
    else .callGateway

/-- Validation of `/api/list-topics` (same shape as generate-quiz). -/
def listTopicsValidate (text : Option (List Char)) : RouteStep :=
  match text with
  | none => .reject 400 "Text content is required to extract topics."
  | some s =>
    if s = [] ∨ trimChars s = [] then .reject 400 "Text content is required to extract topics."
    else .callGateway

/-- Validation of `/api/chatbot`:
`if (!message || typeof message !== "string")` — note: no trim check, a
whitespace-only message passes. -/
def chatbotValidate (message : Option (List Char)) : RouteStep :=
  match message with
  | none => .reject 400 "Message is required."
  | some s =>
    if s = [] then .reject 400 "Message is required."
    else .callGateway

/-- Validation of `/api/quiz-feedback`:
`if (!questions || !userAnswers)` — arrays and objects are truthy even when
empty, so only a missing field rejects. -/
def quizFeedbackValidate (questions : Option (List QuizQuestion))
    (userAnswers : Option (List (Nat × String))) : RouteStep :=
  match questions, userAnswers with
  | none, _ => .reject 400 "Questions and answers required"
  | some _, none => .reject 400 "Questions and answers required"
  | some _, some _ => .callGateway

/-- The `score` object of the gateway's quiz-feedback JSON. -/
structure FeedbackScore where
  correct : Int
  total : Int
  percentage : ℚ
  summary : String
deriving DecidableEq

/-- One entry of the `feedback` array of the gateway's quiz-feedback JSON. -/
structure FeedbackItem where
  topic : String
  question : String
  user_answer : Option String
  correct_answer : String
  is_correct : Bool
  explanation : String
deriving DecidableEq

/-- The parsed body of the gateway's quiz-feedback response. -/
structure FeedbackData where
  feedback : List FeedbackItem
  score : FeedbackScore
deriving DecidableEq

/-- The `/api/quiz-feedback` handler of `api/server.js` after the gateway
round trip: the sanitized gateway text is `JSON.parse`d and the parsed
object is passed to `res.json(feedbackData)` unchanged. The gateway call
and `JSON.parse` are abstracted as the already-parsed `gatewayParsed`
argument; every step the handler itself performs on that value is embedded
here, and there are none between the parse and the response. -/
def quizFeedbackHandler (questions : Option (List QuizQuestion))
    (userAnswers : Option (List (Nat × String))) (gatewayParsed : FeedbackData) :
    Except (Nat × String) FeedbackData :=
  match quizFeedbackValidate questions userAnswers with
  | .reject st e => .error (st, e)
  | .callGateway => .ok gatewayParsed

/-- The `{topics, covered}` object persisted under the
`StudySpark-Topics` key. -/
structure TopicCoverageState where
  topics : List String
  covered : List (String × Bool)
deriving DecidableEq

/-- The body of the `topics.forEach` loop of `updateCoveredTopics`
(`QuizGenerator.tsx`): push the topic if absent, then
`covered[topic] = true`. -/
def updateCoveredTopicsStep (st : TopicCoverageState) (topic : String) :
    TopicCoverageState :=
  { topics := if topic ∈ st.topics then st.topics else st.topics ++ [topic]
    covered := setEntry st.covered topic true }

/-- `updateCoveredTopics` of `QuizGenerator.tsx`: fold the loop body over
the incoming topic list. -/
def updateCoveredTopics (st : TopicCoverageState) (newTopics : List String) :
    TopicCoverageState :=
  newTopics.foldl updateCoveredTopicsStep st

/-- Sample question whose correct answer is `"A"`. -/
def qA : QuizQuestion :=
  { topic := "T1"
    question := "Q1"
    options := { A := "a1", B := "b1", C := "c1", D := "d1" }
    correct_answer := "A"
    explanation := "E1" }

/-- Sample question whose correct answer is `"B"`. -/
def qB : QuizQuestion :=
  { topic := "T2"
    question := "Q2"
    options := { A := "a2", B := "b2", C := "c2", D := "d2" }
    correct_answer := "B"
    explanation := "E2" }

/-- Sample question whose correct answer is `"C"`. -/
def qC : QuizQuestion :=
  { topic := "T3"
    question := "Q3"
    options := { A := "a3", B := "b3", C := "c3", D := "d3" }
    correct_answer := "C"
    explanation := "E3" }

/-- A gateway feedback payload whose numeric score disagrees with the local
computation for a one-question quiz answered incorrectly. -/
def mismatchedFeedback : FeedbackData :=
  { feedback := []
    score := { correct := 5, total := 1, percentage := 500, summary := "s" } }

/-- A sample prior topic-coverage state. -/
def tcsBefore : TopicCoverageState :=
  { topics := ["Alg"], covered := [("Alg", true)] }

/- ### Association-list lemmas -/

theorem lookupEntry_eq_none {α β : Type} [DecidableEq α] (l : List (α × β)) (k : α)
    (h : l.any (fun p => p.1 == k) = false) : lookupEntry l k = none := by
  induction l with
  | nil => rfl
  | cons p rest ih =>
    simp only [List.any_cons, Bool.or_eq_false_iff, beq_eq_false_iff_ne, ne_eq] at h
    simp only [lookupEntry, if_neg h.1, ih h.2]

theorem lookupEntry_map_set_ne {α β : Type} [DecidableEq α] (l : List (α × β)) (k j : α)
    (v : β) (hne : j ≠ k) :
    lookupEntry (l.map (fun p => if p.1 = k then (k, v) else p)) j = lookupEntry l j := by
  induction l with
  | nil => rfl
  | cons p rest ih =>
    by_cases hp : p.1 = k
    · have h1 : ¬ ((k, v) : α × β).1 = j := fun hkj => hne (hkj.symm)
      have h2 : ¬ p.1 = j := fun hj => hne ((hp ▸ hj).symm)
      simp only [List.map_cons, if_pos hp, lookupEntry, if_neg h1, if_neg h2, ih]
    · simp only [List.map_cons, if_neg hp, lookupEntry, ih]

theorem lookupEntry_map_set_self {α β : Type} [DecidableEq α] (l : List (α × β)) (k : α)
    (v : β) (h : l.any (fun p => p.1 == k) = true) :
    lookupEntry (l.map (fun p => if p.1 = k then (k, v) else p)) k = some v := by
  induction l with
  | nil => simp at h
  | cons p rest ih =>
    by_cases hp : p.1 = k
    · simp only [List.map_cons, if_pos hp, lookupEntry]
      simp
    · simp only [List.any_cons, Bool.or_eq_true, beq_iff_eq] at h
      rcases h with h | h
      · exact absurd h hp
      · simp only [List.map_cons, if_neg hp, lookupEntry, if_neg hp, ih h]

theorem lookupEntry_append_single {α β : Type} [DecidableEq α] (l : List (α × β)) (k j : α)
    (v : β) :
    lookupEntry (l ++ [(k, v)]) j =
      match lookupEntry l j with
      | some w => some w
      | none => if k = j then some v else none := by
  induction l with
  | nil => rfl
  | cons p rest ih =>
    by_cases hp : p.1 = j
    · simp only [List.cons_append, lookupEntry, if_pos hp]
    · simp only [List.cons_append, lookupEntry, if_neg hp]
      rw [List.append_eq]
      exact ih

/-- Lookup after a JS object-spread update: the updated key reads the new
value and every other key is unchanged. -/
theorem lookupEntry_setEntry {α β : Type} [DecidableEq α] (l : List (α × β)) (k j : α)
    (v : β) :
    lookupEntry (setEntry l k v) j = if j = k then some v else lookupEntry l j := by
  unfold setEntry
  by_cases hany : l.any (fun p => p.1 == k) = true
  · rw [if_pos hany]
    by_cases hj : j = k
    · subst hj
      rw [if_pos rfl, lookupEntry_map_set_self l j v hany]
    · rw [if_neg hj, lookupEntry_map_set_ne l k j v hj]
  · rw [if_neg hany, lookupEntry_append_single]
    by_cases hj : j = k
    · subst hj
      rw [lookupEntry_eq_none l j (Bool.eq_false_iff.mpr hany)]
    · rw [if_neg hj]
      cases h : lookupEntry l j with
      | some w => rfl
      | none => simp only [if_neg (fun hk : k = j => hj hk.symm)]

/- ### Scoring lemmas -/

theorem calculateScore_eq_countP (qs : List QuizQuestion) (m : List (Nat × String)) :
    calculateScore qs m = m.countP (answerMatches qs) := by
  have key : ∀ (l : List (Nat × String)) (n : Nat),
      l.foldl (fun score p => if answerMatches qs p then score + 1 else score) n =
        n + l.countP (answerMatches qs) := by
    intro l
    induction l with
    | nil => intro n; simp
    | cons p rest ih =>
      intro n
      rw [List.foldl_cons, List.countP_cons, ih]
      by_cases h : answerMatches qs p <;> simp [h] <;> try omega
  simpa [calculateScore] using key m 0

theorem isCorrectAt_nil (qs : List QuizQuestion) (i : Nat) :
    isCorrectAt qs [] i = false := rfl

theorem isCorrectAt_lookup_ne (qs : List QuizQuestion) (p : Nat × String)
    (t : List (Nat × String)) (i : Nat) (hi : i ≠ p.1) :
    isCorrectAt qs (p :: t) i = isCorrectAt qs t i := by
  have h : lookupEntry (p :: t) i = lookupEntry t i := by
    simp only [lookupEntry, if_neg (fun h : p.1 = i => hi h.symm)]
  rw [isCorrectAt, isCorrectAt, h]

theorem isCorrectAt_of_lookup_none (qs : List QuizQuestion) (m : List (Nat × String))
    (i : Nat) (h : lookupEntry m i = none) : isCorrectAt qs m i = false := by
  rw [isCorrectAt, h]

/-- A `countP` over a duplicate-free list, for two predicates that agree
everywhere except at `a` where the second is false. -/
theorem countP_single_diff (l : List Nat) (f g : Nat → Bool) (a : Nat)
    (hfg : ∀ i, i ≠ a → f i = g i) (hga : g a = false) (hnd : l.Nodup) :
    l.countP f = l.countP g + (if a ∈ l then (if f a then 1 else 0) else 0) := by
  induction l with
  | nil => simp
  | cons b t ih =>
    rw [List.nodup_cons] at hnd
    rcases hnd with ⟨hbt, hndt⟩
    rw [List.countP_cons, List.countP_cons]
    by_cases hba : b = a
    · subst hba
      have ht : t.countP f = t.countP g :=
        List.countP_congr (fun x hx => by
          rw [hfg x (fun hxa => hbt (hxa ▸ hx))])
      rw [ht]
      have hmem : b ∈ b :: t := List.mem_cons_self b t
      rw [hga, if_pos hmem]
      by_cases hfa : f b <;> simp [hfa]
    · have hfb : f b = g b := hfg b hba
      rw [ih hndt, hfb]
      have hmem : (a ∈ b :: t) ↔ (a ∈ t) := by
        simp only [List.mem_cons, or_iff_right_iff_imp]
        intro hab
        exact absurd hab.symm hba
      by_cases hat : a ∈ t
      · rw [if_pos hat, if_pos (hmem.mpr hat)]
        omega
      · rw [if_neg hat, if_neg (fun h => hat (hmem.mp h))]
        omega

theorem lookupEntry_eq_none_of_key_not_mem (t : List (Nat × String)) (k : Nat)
    (h : k ∉ t.map Prod.fst) : lookupEntry t k = none := by
  apply lookupEntry_eq_none
  rw [List.any_eq_false]
  intro x hx
  simp only [beq_iff_eq]
  intro hxk
  exact h (hxk ▸ List.mem_map_of_mem Prod.fst hx)

/-- Bridge between the entry-wise fold of `calculateScore` and the
index-wise correctness of the results view: over a map with
duplicate-free keys they count the same thing. -/
theorem countP_entries_eq_countP_range (qs : List QuizQuestion) :
    ∀ (m : List (Nat × String)), (m.map Prod.fst).Nodup →
      m.countP (answerMatches qs) =
        (List.range qs.length).countP (fun i => isCorrectAt qs m i) := by
  intro m
  induction m with
  | nil =>
    intro _
    simp [isCorrectAt_nil]
  | cons p t ih =>
    intro hnd
    rw [List.map_cons, List.nodup_cons] at hnd
    rcases hnd with ⟨hpt, hndt⟩
    have hlook : lookupEntry t p.1 = none := lookupEntry_eq_none_of_key_not_mem t p.1 hpt
    have hga : isCorrectAt qs t p.1 = false := isCorrectAt_of_lookup_none qs t p.1 hlook
    have hfg : ∀ i, i ≠ p.1 → isCorrectAt qs (p :: t) i = isCorrectAt qs t i :=
      fun i hi => isCorrectAt_lookup_ne qs p t i hi
    rw [List.countP_cons, ih hndt,
      countP_single_diff (List.range qs.length) (fun i => isCorrectAt qs (p :: t) i)
        (fun i => isCorrectAt qs t i) p.1 hfg hga (List.nodup_range _)]
    congr 1
    have hself : lookupEntry (p :: t) p.1 = some p.2 := by
      simp [lookupEntry]
    by_cases hin : p.1 < qs.length
    · rw [if_pos (List.mem_range.mpr hin)]
      by_cases hm : (qs[p.1]?).map QuizQuestion.correct_answer = some p.2
      · simp [answerMatches, isCorrectAt, hself, hm]
      · have h2 : ¬ some p.2 = (qs[p.1]?).map QuizQuestion.correct_answer :=
          fun h => hm h.symm
        simp [answerMatches, isCorrectAt, hself, hm, h2]
    · rw [if_neg (fun hmem => hin (List.mem_range.mp hmem))]
      have hnone : qs[p.1]? = none := List.getElem?_eq_none (le_of_not_lt hin)
      simp [answerMatches, hnone]

/- ### Claim C1 -/

/-- Claim C1: for an `InProgress` session (completed flag false, cursor in
range) `nextQuestion` increments the cursor by exactly one and stays
`InProgress` when the cursor is not on the last index; on the last index it
sets the completed flag, and it is the only operation of the component that
can set it (selectAnswer, prevQuestion, resetQuiz and the initial state all
leave it false); and the `start([q1,q2])` scenario: one advance gives
cursor 1 still in progress, a second advance completes. -/
theorem nextQuestion_advance_spec (s : QuizState) (key : String)
    (hC : s.isCompleted = false) (hlt : s.currentQuestion < s.questions.length) :
    (s.currentQuestion < s.questions.length - 1 →
      (nextQuestion s).currentQuestion = s.currentQuestion + 1 ∧
      (nextQuestion s).isCompleted = false ∧
      (nextQuestion s).questions = s.questions) ∧
    (s.currentQuestion = s.questions.length - 1 →
      (nextQuestion s).isCompleted = true ∧
      (nextQuestion s).currentQuestion = s.currentQuestion) ∧
    ((nextQuestion s).isCompleted = true → s.currentQuestion = s.questions.length - 1) ∧
    ((prevQuestion s).isCompleted = false ∧ (selectAnswer s key).isCompleted = false ∧
      (resetQuiz s).isCompleted = false ∧ (startQuiz s.questions).isCompleted = false) ∧
    (∀ q1 q2 : QuizQuestion,
      (nextQuestion (startQuiz [q1, q2])).currentQuestion = 1 ∧
      (nextQuestion (startQuiz [q1, q2])).isCompleted = false ∧
      (nextQuestion (nextQuestion (startQuiz [q1, q2]))).isCompleted = true) := by
  refine ⟨?_, ?_, ?_, ⟨?_, ?_, ?_, rfl⟩, ?_⟩
  · intro h
    rw [nextQuestion, if_pos h]
    exact ⟨rfl, hC, rfl⟩
  · intro h
    have hn : ¬ s.currentQuestion < s.questions.length - 1 := by omega
    rw [nextQuestion, if_neg hn]
    exact ⟨rfl, rfl⟩
  · intro h
    by_cases hl : s.currentQuestion < s.questions.length - 1
    · rw [nextQuestion, if_pos hl] at h
      exact absurd h (by rw [hC]; exact Bool.false_ne_true)
    · omega
  · rw [prevQuestion]
    by_cases h : s.currentQuestion > 0
    · rw [if_pos h]; exact hC
    · rw [if_neg h]; exact hC
  · rw [selectAnswer, hC]
    simp
  · rfl
  · intro q1 q2
    refine ⟨?_, ?_, ?_⟩ <;> simp [startQuiz, nextQuestion]

/-- Witness for C1 at the concrete two-question session. -/
theorem nextQuestion_advance_spec_witness :
    (nextQuestion (startQuiz [qA, qB])).currentQuestion = 1 ∧
    (nextQuestion (startQuiz [qA, qB])).isCompleted = false ∧
    (nextQuestion (nextQuestion (startQuiz [qA, qB]))).isCompleted = true :=
  (nextQuestion_advance_spec (startQuiz [qA, qB]) "A" rfl (by decide)).2.2.2.2 qA qB

/- ### Claim C2 -/

/-- Counterexample to claim C2: in the completed state reached by finishing
a two-question quiz, `prevQuestion` still moves the cursor (the code has no
completion check in `prevQuestion`), so navigation after completion is not
a no-op. -/
theorem prevQuestion_after_completion_moves_cursor :
    (nextQuestion (nextQuestion (startQuiz [qA, qB]))).isCompleted = true ∧
    (nextQuestion (nextQuestion (startQuiz [qA, qB]))).currentQuestion = 1 ∧
    (prevQuestion (nextQuestion (nextQuestion (startQuiz [qA, qB])))).currentQuestion = 0 := by
  decide

/-- Claim C2 as amended: once the completed flag is set, the question list
keeps its length, neither navigation operation ever clears the flag, and
`nextQuestion` on the last index (with results already shown) is a full
no-op; but `prevQuestion` still decrements a positive cursor exactly as
before completion. -/
theorem completed_session_navigation (s : QuizState) (hC : s.isCompleted = true) :
    (nextQuestion s).questions = s.questions ∧
    (prevQuestion s).questions = s.questions ∧
    (nextQuestion s).isCompleted = true ∧
    (prevQuestion s).isCompleted = true ∧
    (s.currentQuestion = s.questions.length - 1 ∧ s.showResults = true →
      nextQuestion s = s) ∧
    (0 < s.currentQuestion → (prevQuestion s).currentQuestion = s.currentQuestion - 1) ∧
    (s.currentQuestion = 0 → prevQuestion s = s) := by
  refine ⟨?_, ?_, ?_, ?_, ?_, ?_, ?_⟩
  · rw [nextQuestion]; split <;> rfl
  · rw [prevQuestion]; split <;> rfl
  · rw [nextQuestion]; split
    · exact hC
    · rfl
  · rw [prevQuestion]; split <;> exact hC
  · rintro ⟨h1, h2⟩
    have hn : ¬ s.currentQuestion < s.questions.length - 1 := by omega
    rw [nextQuestion, if_neg hn]
    cases s with
    | mk q c a sr ic =>
      simp only at h2 hC
      simp [h2, hC]
  · intro h
    rw [prevQuestion, if_pos h]
  · intro h
    rw [prevQuestion, if_neg (by omega : ¬ s.currentQuestion > 0)]

/-- Witness for the amended C2 at the concrete completed two-question
session. -/
theorem completed_session_navigation_witness :
    (prevQuestion (nextQuestion (nextQuestion (startQuiz [qA, qB])))).currentQuestion =
      (nextQuestion (nextQuestion (startQuiz [qA, qB]))).currentQuestion - 1 ∧
    (prevQuestion (nextQuestion (nextQuestion (startQuiz [qA, qB])))).isCompleted = true :=
  have h := completed_session_navigation (nextQuestion (nextQuestion (startQuiz [qA, qB])))
    (by decide)
  ⟨h.2.2.2.2.2.1 (by decide), h.2.2.2.1⟩

/- ### Claim C5 -/

/-- Claim C5: `selectAnswer` is a no-op on a completed session; otherwise
it records the choice for the current index (overwriting any prior
selection there), leaves every other index unchanged, and touches neither
the cursor, the completed flag, nor the question list. -/
theorem selectAnswer_spec (s : QuizState) (key : String) :
    (s.isCompleted = true → selectAnswer s key = s) ∧
    (s.isCompleted = false →
      lookupEntry (selectAnswer s key).selectedAnswers s.currentQuestion = some key ∧
      (∀ j, j ≠ s.currentQuestion →
        lookupEntry (selectAnswer s key).selectedAnswers j =
          lookupEntry s.selectedAnswers j) ∧
      (selectAnswer s key).currentQuestion = s.currentQuestion ∧
      (selectAnswer s key).isCompleted = false ∧
      (selectAnswer s key).questions = s.questions) := by
  constructor
  · intro h
    rw [selectAnswer, h]
    rfl
  · intro h
    have hsel : selectAnswer s key =
        { s with selectedAnswers := setEntry s.selectedAnswers s.currentQuestion key } := by
      rw [selectAnswer, h]
      simp
    rw [hsel]
    refine ⟨?_, ?_, rfl, h, rfl⟩
    · exact (lookupEntry_setEntry _ _ _ _).trans (if_pos rfl)
    · intro j hj
      exact (lookupEntry_setEntry _ _ _ _).trans (if_neg hj)

/-- Witness for C5: selecting `"B"` then re-selecting `"C"` on the first
question of a fresh session. -/
theorem selectAnswer_spec_witness :
    lookupEntry (selectAnswer (startQuiz [qA, qB]) "B").selectedAnswers 0 = some "B" ∧
    lookupEntry (selectAnswer (startQuiz [qA, qB]) "B").selectedAnswers 1 =
      lookupEntry (startQuiz [qA, qB]).selectedAnswers 1 :=
  have h := (selectAnswer_spec (startQuiz [qA, qB]) "B").2 rfl
  ⟨h.1, h.2.1 1 (by decide)⟩

/- ### Claim C4 -/

/-- Claim C4: the fold of `calculateScore` counts exactly the indices whose
recorded answer equals the question's `correct_answer`; an index with no
recorded answer is never correct; and the three-question scenario with
answers A at 0, X at 1 and nothing at 2 scores 1 of 3 with questions 1 and
2 incorrect. -/
theorem calculateScore_counts_correct_matches (qs : List QuizQuestion)
    (m : List (Nat × String)) (hnd : (m.map Prod.fst).Nodup) :
    calculateScore qs m = (List.range qs.length).countP (fun i => isCorrectAt qs m i) ∧
    (∀ i, isCorrectAt qs m i = true ↔
      ∃ a, lookupEntry m i = some a ∧
        (qs[i]?).map QuizQuestion.correct_answer = some a) ∧
    (∀ i, lookupEntry m i = none → isCorrectAt qs m i = false) ∧
    (calculateScore [qA, qB, qC] [(0, "A"), (1, "X")] = 1 ∧
      List.length [qA, qB, qC] = 3 ∧
      isCorrectAt [qA, qB, qC] [(0, "A"), (1, "X")] 0 = true ∧
      isCorrectAt [qA, qB, qC] [(0, "A"), (1, "X")] 1 = false ∧
      isCorrectAt [qA, qB, qC] [(0, "A"), (1, "X")] 2 = false ∧
      lookupEntry [(0, "A"), (1, "X")] 2 = (none : Option String)) := by
  refine ⟨(calculateScore_eq_countP qs m).trans (countP_entries_eq_countP_range qs m hnd),
    ?_, isCorrectAt_of_lookup_none qs m, by decide⟩
  intro i
  rw [isCorrectAt]
  cases h : lookupEntry m i with
  | none => simp
  | some a =>
    constructor
    · intro hb
      exact ⟨a, rfl, (beq_iff_eq.mp hb).symm⟩
    · rintro ⟨b, hb1, hb2⟩
      exact beq_iff_eq.mpr (hb1.trans hb2.symm)

/-- Witness for C4 at the scenario inputs. -/
theorem calculateScore_counts_correct_matches_witness :
    calculateScore [qA, qB, qC] [(0, "A"), (1, "X")] =
      (List.range (List.length [qA, qB, qC])).countP
        (fun i => isCorrectAt [qA, qB, qC] [(0, "A"), (1, "X")] i) :=
  (calculateScore_counts_correct_matches [qA, qB, qC] [(0, "A"), (1, "X")] (by decide)).1

/- ### Claim C10 -/

/-- Claim C10 (implicit): `calculateScore` is total and bounded on
arbitrary answer maps with duplicate-free keys: the result never exceeds
the number of questions, entries at out-of-range indices contribute
nothing (the score equals the score of the map restricted to in-range
indices), and an out-of-range entry never matches. -/
theorem calculateScore_total_bounded (qs : List QuizQuestion)
    (m : List (Nat × String)) (hnd : (m.map Prod.fst).Nodup) :
    calculateScore qs m ≤ qs.length ∧
    calculateScore qs m =
      calculateScore qs (m.filter (fun p => decide (p.1 < qs.length))) ∧
    (∀ p ∈ m, qs.length ≤ p.1 → answerMatches qs p = false) := by
  have hrange : ∀ p : Nat × String, answerMatches qs p = true → p.1 < qs.length := by
    intro p hp
    rw [answerMatches, beq_iff_eq] at hp
    by_contra hge
    rw [List.getElem?_eq_none (le_of_not_lt hge)] at hp
    exact Option.noConfusion hp
  refine ⟨?_, ?_, ?_⟩
  · rw [calculateScore_eq_countP, countP_entries_eq_countP_range qs m hnd]
    calc (List.range qs.length).countP (fun i => isCorrectAt qs m i)
        ≤ (List.range qs.length).length := List.countP_le_length _
      _ = qs.length := List.length_range _
  · rw [calculateScore_eq_countP, calculateScore_eq_countP, List.countP_filter]
    exact List.countP_congr (fun p _ => by
      constructor
      · intro hp
        simp [hp, hrange p hp]
      · intro hp
        simp only [Bool.and_eq_true] at hp
        exact hp.1)
  · intro p _ hge
    rw [answerMatches, List.getElem?_eq_none hge]
    rfl

/-- Witness for C10 with an out-of-range entry and a non-choice-key
value. -/
theorem calculateScore_total_bounded_witness :
    calculateScore [qA, qB, qC] [(0, "A"), (7, "Z")] ≤ List.length [qA, qB, qC] ∧
    answerMatches [qA, qB, qC] (7, "Z") = false :=
  have h := calculateScore_total_bounded [qA, qB, qC] [(0, "A"), (7, "Z")] (by decide)
  ⟨h.1, h.2.2 (7, "Z") (by decide) (by decide)⟩

/- ### Claim C3 -/

/-- Counterexample to claim C3: the results view does not keep the exact
value `100 * correct / total`; it stores `Math.round((score/total)*100)`,
an integer. With 1 correct of 3 the displayed value is 33, which differs
from 100/3 by 1/3, far beyond the claimed 1e-9 tolerance. -/
theorem resultsPercentage_not_full_precision :
    calculateScore [qA, qB, qC] [(0, "A")] = 1 ∧
    resultsPercentage [qA, qB, qC] [(0, "A")] = 33 ∧
    ¬ (|(resultsPercentage [qA, qB, qC] [(0, "A")] : ℚ) -
        100 * (calculateScore [qA, qB, qC] [(0, "A")] : ℚ) /
          (List.length [qA, qB, qC] : ℚ)| ≤ 1 / 10 ^ 9) := by
  have h1 : calculateScore [qA, qB, qC] [(0, "A")] = 1 := by decide
  have h2 : resultsPercentage [qA, qB, qC] [(0, "A")] = 33 := by
    rw [resultsPercentage, h1]
    norm_num [round_eq]
  have h3 : (List.length [qA, qB, qC] : ℚ) = 3 := by simp
  refine ⟨h1, h2, ?_⟩
  rw [h1, h2, h3]
  norm_num [abs_le]

/-- Claim C3 as amended: the percentage stored and displayed by the
results view is the integer `round(100 * correct / total)`; the exact
rational is approximated only within 1/2, not kept in full precision. -/
theorem resultsPercentage_rounds_to_integer (qs : List QuizQuestion)
    (m : List (Nat × String)) (h : qs ≠ []) :
    resultsPercentage qs m =
      round ((100 * (calculateScore qs m : ℚ)) / (qs.length : ℚ)) ∧
    |(resultsPercentage qs m : ℚ) -
      ((calculateScore qs m : ℚ) / (qs.length : ℚ)) * 100| ≤ 1 / 2 := by
  constructor
  · rw [resultsPercentage]
    congr 1
    ring
  · rw [resultsPercentage, abs_sub_comm]
    exact abs_sub_round _

/-- Witness for the amended C3 at the 1-of-3 scenario. -/
theorem resultsPercentage_rounds_to_integer_witness :
    resultsPercentage [qA, qB, qC] [(0, "A")] =
      round ((100 * (calculateScore [qA, qB, qC] [(0, "A")] : ℚ)) /
        (List.length [qA, qB, qC] : ℚ)) ∧
    |(resultsPercentage [qA, qB, qC] [(0, "A")] : ℚ) -
      ((calculateScore [qA, qB, qC] [(0, "A")] : ℚ) /
        (List.length [qA, qB, qC] : ℚ)) * 100| ≤ 1 / 2 :=
  resultsPercentage_rounds_to_integer [qA, qB, qC] [(0, "A")] (by decide)

/- ### Topic-coverage lemmas -/

theorem updateCoveredTopics_cons (st : TopicCoverageState) (n : String)
    (rest : List String) :
    updateCoveredTopics st (n :: rest) =
      updateCoveredTopics (updateCoveredTopicsStep st n) rest := rfl

theorem step_topics_mem (st : TopicCoverageState) (n t : String)
    (ht : t ∈ st.topics) : t ∈ (updateCoveredTopicsStep st n).topics := by
  rw [updateCoveredTopicsStep]
  by_cases h : n ∈ st.topics
  · simpa [h] using ht
  · simp only [if_neg h, List.mem_append]
    exact Or.inl ht

theorem updateCoveredTopics_topics_mono (nts : List String) :
    ∀ (st : TopicCoverageState) (t : String), t ∈ st.topics →
      t ∈ (updateCoveredTopics st nts).topics := by
  induction nts with
  | nil => intro st t ht; exact ht
  | cons n rest ih =>
    intro st t ht
    rw [updateCoveredTopics_cons]
    exact ih _ t (step_topics_mem st n t ht)

theorem updateCoveredTopics_length_mono (nts : List String) :
    ∀ st : TopicCoverageState,
      st.topics.length ≤ (updateCoveredTopics st nts).topics.length := by
  induction nts with
  | nil => intro st; exact le_refl _
  | cons n rest ih =>
    intro st
    refine le_trans ?_ (ih (updateCoveredTopicsStep st n))
    rw [updateCoveredTopicsStep]
    by_cases h : n ∈ st.topics
    · simp [h]
    · simp [h]

theorem updateCoveredTopics_mem_new (nts : List String) :
    ∀ (st : TopicCoverageState) (t : String), t ∈ nts →
      t ∈ (updateCoveredTopics st nts).topics := by
  induction nts with
  | nil => intro st t ht; exact absurd ht (List.not_mem_nil t)
  | cons n rest ih =>
    intro st t ht
    rw [updateCoveredTopics_cons]
    rcases List.mem_cons.mp ht with h | h
    · subst h
      apply updateCoveredTopics_topics_mono
      rw [updateCoveredTopicsStep]
      by_cases hn : t ∈ st.topics
      · simpa [hn] using hn
      · simp [hn]
    · exact ih _ t h

theorem step_count_mem (st : TopicCoverageState) (n t : String)
    (ht : t ∈ st.topics) :
    (updateCoveredTopicsStep st n).topics.count t = st.topics.count t := by
  rw [updateCoveredTopicsStep]
  by_cases h : n ∈ st.topics
  · simp [h]
  · have hnt : n ≠ t := fun he => h (he ▸ ht)
    simp only [if_neg h, List.count_append, List.count_singleton]
    simp [hnt]

theorem updateCoveredTopics_count_mem (nts : List String) :
    ∀ (st : TopicCoverageState) (t : String), t ∈ st.topics →
      (updateCoveredTopics st nts).topics.count t = st.topics.count t := by
  induction nts with
  | nil => intro st t _; rfl
  | cons n rest ih =>
    intro st t ht
    rw [updateCoveredTopics_cons, ih _ t (step_topics_mem st n t ht),
      step_count_mem st n t ht]

theorem updateCoveredTopics_count_new (nts : List String) :
    ∀ (st : TopicCoverageState) (t : String), t ∈ nts → t ∉ st.topics →
      (updateCoveredTopics st nts).topics.count t = st.topics.count t + 1 := by
  induction nts with
  | nil => intro st t ht; exact absurd ht (List.not_mem_nil t)
  | cons n rest ih =>
    intro st t ht hnot
    rw [updateCoveredTopics_cons]
    by_cases hn : t = n
    · subst hn
      have hstep : (updateCoveredTopicsStep st t).topics = st.topics ++ [t] := by
        rw [updateCoveredTopicsStep, if_neg hnot]
      have hmem : t ∈ (updateCoveredTopicsStep st t).topics := by
        rw [hstep]
        simp
      rw [updateCoveredTopics_count_mem rest _ t hmem, hstep, List.count_append]
      simp
    · have hne : n ≠ t := fun he => hn he.symm
      have hrest : t ∈ rest := (List.mem_cons.mp ht).resolve_left hn
      by_cases hmem : n ∈ st.topics
      · have hstep : (updateCoveredTopicsStep st n).topics = st.topics := by
          rw [updateCoveredTopicsStep, if_pos hmem]
        rw [ih _ t hrest (by rw [hstep]; exact hnot), hstep]
      · have hstep : (updateCoveredTopicsStep st n).topics = st.topics ++ [n] := by
          rw [updateCoveredTopicsStep, if_neg hmem]
        have hnot2 : t ∉ (updateCoveredTopicsStep st n).topics := by
          rw [hstep, List.mem_append]
          rintro (h | h)
          · exact hnot h
          · exact hn (List.mem_singleton.mp h)
        rw [ih _ t hrest hnot2, hstep, List.count_append,
          List.count_eq_zero_of_not_mem (by simp [hn] : t ∉ [n])]

theorem updateCoveredTopics_covered_mono (nts : List String) :
    ∀ (st : TopicCoverageState) (t : String),
      lookupEntry st.covered t = some true →
      lookupEntry (updateCoveredTopics st nts).covered t = some true := by
  induction nts with
  | nil => intro st t h; exact h
  | cons n rest ih =>
    intro st t h
    rw [updateCoveredTopics_cons]
    apply ih
    rw [updateCoveredTopicsStep]
    simp only
    rw [lookupEntry_setEntry]
    by_cases hn : t = n
    · rw [if_pos hn]
    · rw [if_neg hn]
      exact h

theorem updateCoveredTopics_covered_new (nts : List String) :
    ∀ (st : TopicCoverageState) (t : String), t ∈ nts →
      lookupEntry (updateCoveredTopics st nts).covered t = some true := by
  induction nts with
  | nil => intro st t ht; exact absurd ht (List.not_mem_nil t)
  | cons n rest ih =>
    intro st t ht
    rw [updateCoveredTopics_cons]
    rcases List.mem_cons.mp ht with h | h
    · subst h
      apply updateCoveredTopics_covered_mono
      rw [updateCoveredTopicsStep]
      simp only
      rw [lookupEntry_setEntry, if_pos rfl]
    · exact ih _ t h

/- ### Claim C8 -/

/-- Claim C8: `updateCoveredTopics` is monotonic — every prior topic
survives (so the length never shrinks), each genuinely new topic of the
incoming list is appended exactly once, every incoming topic ends up
marked covered, and no covered mark is ever turned off (a `some true`
entry stays `some true`). -/
theorem updateCoveredTopics_monotone (st : TopicCoverageState)
    (newTopics : List String) :
    (∀ t, t ∈ st.topics → t ∈ (updateCoveredTopics st newTopics).topics) ∧
    st.topics.length ≤ (updateCoveredTopics st newTopics).topics.length ∧
    (∀ t, t ∈ newTopics → t ∈ (updateCoveredTopics st newTopics).topics) ∧
    (∀ t, t ∈ newTopics → t ∉ st.topics →
      (updateCoveredTopics st newTopics).topics.count t = 1) ∧
    (∀ t, t ∈ newTopics →
      lookupEntry (updateCoveredTopics st newTopics).covered t = some true) ∧
    (∀ t, lookupEntry st.covered t = some true →
      lookupEntry (updateCoveredTopics st newTopics).covered t = some true) := by
  refine ⟨fun t ht => updateCoveredTopics_topics_mono newTopics st t ht,
    updateCoveredTopics_length_mono newTopics st,
    fun t ht => updateCoveredTopics_mem_new newTopics st t ht,
    fun t ht hnot => ?_,
    fun t ht => updateCoveredTopics_covered_new newTopics st t ht,
    fun t ht => updateCoveredTopics_covered_mono newTopics st t ht⟩
  rw [updateCoveredTopics_count_new newTopics st t ht hnot,
    List.count_eq_zero_of_not_mem hnot]

/-- Witness for C8 merging `["Geo", "Alg"]` into a state already holding
`"Alg"`. -/
theorem updateCoveredTopics_monotone_witness :
    "Alg" ∈ (updateCoveredTopics tcsBefore ["Geo", "Alg"]).topics ∧
    (updateCoveredTopics tcsBefore ["Geo", "Alg"]).topics.count "Geo" = 1 ∧
    lookupEntry (updateCoveredTopics tcsBefore ["Geo", "Alg"]).covered "Geo" = some true ∧
    lookupEntry (updateCoveredTopics tcsBefore ["Geo", "Alg"]).covered "Alg" = some true :=
  have h := updateCoveredTopics_monotone tcsBefore ["Geo", "Alg"]
  ⟨h.1 "Alg" (by decide), h.2.2.2.1 "Geo" (by decide) (by decide),
    h.2.2.2.2.1 "Geo" (by decide), h.2.2.2.2.2 "Alg" (by decide)⟩

/- ### Claim C7 -/

/-- Counterexample to claim C7: the chatbot route's required string field
`message` is not rejected when it is empty after trimming — a
whitespace-only message passes validation and reaches the gateway, so the
"every endpoint rejects empty-after-trim required fields with 400"
statement fails on `/api/chatbot`. -/
theorem chatbot_accepts_whitespace_message :
    trimChars [' '] = [] ∧ chatbotValidate (some [' ']) = .callGateway := by
  decide

/-- Claim C7 as amended: the generate-quiz, summary and list-topics routes
reject a missing or empty-after-trim required string field with HTTP 400
and their fixed error bodies, before the gateway is consulted (the
`RouteStep.reject` outcome short-circuits the handler, which holds no
mutable state); quiz-feedback rejects a missing `questions` or
`userAnswers`; the chatbot route rejects only a missing, non-string or
empty-string `message` (it performs no trim check); and the empty-notes
scenario yields exactly `400 {error: "Notes content is required."}`. -/
theorem proxy_validation_spec :
    (∀ notes : Option (List Char),
      (notes = none ∨ ∃ s, notes = some s ∧ trimChars s = []) →
      generateQuizValidate notes = .reject 400 "Notes content is required.") ∧
    (∀ text : Option (List Char),
      (text = none ∨ ∃ s, text = some s ∧ trimChars s = []) →
      summaryValidate text = .reject 400 "Text content is required for summary.") ∧
    (∀ text : Option (List Char),
      (text = none ∨ ∃ s, text = some s ∧ trimChars s = []) →
      listTopicsValidate text = .reject 400 "Text content is required to extract topics.") ∧
    (∀ message : Option (List Char), (message = none ∨ message = some []) →
      chatbotValidate message = .reject 400 "Message is required.") ∧
    (∀ ua : Option (List (Nat × String)),
      quizFeedbackValidate none ua = .reject 400 "Questions and answers required") ∧
    (∀ qs : Option (List QuizQuestion),
      quizFeedbackValidate qs none = .reject 400 "Questions and answers required") ∧
    generateQuizValidate (some []) = .reject 400 "Notes content is required." := by
  refine ⟨?_, ?_, ?_, ?_, ?_, ?_, by decide⟩
  · rintro notes (rfl | ⟨t, rfl, htrim⟩)
    · rfl
    · rw [generateQuizValidate, if_pos (Or.inr htrim)]
  · rintro text (rfl | ⟨t, rfl, htrim⟩)
    · rfl
    · rw [summaryValidate, if_pos (Or.inr htrim)]
  · rintro text (rfl | ⟨t, rfl, htrim⟩)
    · rfl
    · rw [listTopicsValidate, if_pos (Or.inr htrim)]
  · rintro message (rfl | rfl)
    · rfl
    · rfl
  · intro ua
    rfl
  · intro qs
    cases qs <;> rfl

/-- Witness for the amended C7 at concrete requests. -/
theorem proxy_validation_spec_witness :
    generateQuizValidate (some [' ', ' ']) = .reject 400 "Notes content is required." ∧
    summaryValidate none = .reject 400 "Text content is required for summary." ∧
    chatbotValidate (some []) = .reject 400 "Message is required." :=
  have h := proxy_validation_spec
  ⟨h.1 (some [' ', ' ']) (Or.inr ⟨[' ', ' '], rfl, by decide⟩),
    h.2.1 none (Or.inl rfl),
    h.2.2.2.1 (some []) (Or.inr rfl)⟩

/- ### Claim C9 -/

/-- Counterexample to claim C9: the `/api/quiz-feedback` handler performs
no verification of the gateway's numeric score against the local scoring
computation — a gateway payload claiming 5 correct for a one-question quiz
whose locally computed score is 0 is returned exactly as parsed, neither
corrected nor withheld. -/
theorem quizFeedback_returns_mismatched_score :
    quizFeedbackHandler (some [qA]) (some [(0, "B")]) mismatchedFeedback =
      .ok mismatchedFeedback ∧
    mismatchedFeedback.score.correct = 5 ∧
    (calculateScore [qA] [(0, "B")] : Int) = 0 := by
  refine ⟨rfl, rfl, ?_⟩
  have h : calculateScore [qA] [(0, "B")] = 0 := by decide
  rw [h]
  rfl

/-- Claim C9 as amended: the quiz-feedback handler forwards the parsed
gateway response unchanged; even when the gateway's `score.correct`
disagrees with the local `calculateScore` over the same questions and
answers, the mismatching payload is returned as-is (nothing is verified,
logged or flagged). -/
theorem quizFeedbackHandler_no_verification (qs : List QuizQuestion)
    (ua : List (Nat × String)) (fd : FeedbackData)
    (hmismatch : fd.score.correct ≠ (calculateScore qs ua : Int)) :
    quizFeedbackHandler (some qs) (some ua) fd = .ok fd := rfl

/-- Witness for the amended C9 at the concrete mismatching payload. -/
theorem quizFeedbackHandler_no_verification_witness :
    quizFeedbackHandler (some [qA]) (some [(0, "B")]) mismatchedFeedback =
      .ok mismatchedFeedback :=
  quizFeedbackHandler_no_verification [qA] [(0, "B")] mismatchedFeedback
    (by decide)

/- ### Sanitizer lemmas -/

theorem dropWhile_cons_of_neg (p : Char → Bool) (c : Char) (l : List Char)
    (h : p c = false) : List.dropWhile p (c :: l) = c :: l := by
  rw [List.dropWhile_cons, h]
  simp

theorem head_not_ws_of_dropWhile_eq (p : Char → Bool) (c : Char) (l : List Char)
    (h : List.dropWhile p (c :: l) = c :: l) : p c = false := by
  cases hpc : p c
  · rfl
  · rw [List.dropWhile_cons, hpc] at h
    simp only [if_true] at h
    have hle := (List.dropWhile_sublist (l := l) p).length_le
    have hlen := congrArg List.length h
    simp only [List.length_cons] at hlen
    omega

theorem trimR_append_last (W : List Char) (c : Char) (hc : jsWS c = false) :
    trimR (W ++ [c]) = W ++ [c] := by
  have h1 : (W ++ [c]).reverse = c :: W.reverse := by simp
  rw [trimR, h1, dropWhile_cons_of_neg _ _ _ hc, ← h1, List.reverse_reverse]

theorem dropRightN_append (x y : List Char) : dropRightN (x ++ y) y.length = x := by
  rw [dropRightN, List.length_append]
  have h : x.length + y.length - y.length = x.length := by omega
  rw [h, List.take_left]

theorem sanitize_no_fence (raw : List Char)
    (h : ("```".toList).isPrefixOf (trimChars raw) = false) :
    sanitize raw = trimChars raw := by
  unfold sanitize
  simp only [h]
  simp

theorem sanitize_tagged_core (b0 : Char) (brest : List Char)
    (hb0 : jsWS b0 = false)
    (hR : (b0 :: brest).reverse.dropWhile jsWS = (b0 :: brest).reverse) :
    sanitize ('`' :: '`' :: '`' :: 'j' :: 's' :: 'o' :: 'n' :: '\n' ::
      ((b0 :: brest) ++ '\n' :: '`' :: '`' :: '`' :: [])) = b0 :: brest := by
  set body : List Char := b0 :: brest with hbody
  set raw : List Char := '`' :: '`' :: '`' :: 'j' :: 's' :: 'o' :: 'n' :: '\n' ::
      (body ++ '\n' :: '`' :: '`' :: '`' :: []) with hraw
  have htrimL : trimL raw = raw :=
    dropWhile_cons_of_neg _ _ _ (by decide : jsWS '`' = false)
  have hsplitlast : raw = ('`' :: '`' :: '`' :: 'j' :: 's' :: 'o' :: 'n' :: '\n' ::
      (body ++ '\n' :: '`' :: '`' :: [])) ++ ['`'] := by
    rw [hraw]
    simp
  have htrimR : trimR raw = raw := by
    rw [hsplitlast]
    exact trimR_append_last _ _ (by decide : jsWS '`' = false)
  have htrim : trimChars raw = raw := by
    rw [trimChars, htrimL, htrimR]
  have hpref3 : ("```".toList).isPrefixOf raw = true :=
    List.isPrefixOf_iff_prefix.mpr ⟨'j' :: 's' :: 'o' :: 'n' :: '\n' ::
      (body ++ '\n' :: '`' :: '`' :: '`' :: []), rfl⟩
  have hprefj : ("```json".toList).isPrefixOf raw = true :=
    List.isPrefixOf_iff_prefix.mpr ⟨'\n' :: (body ++ '\n' :: '`' :: '`' :: '`' :: []), rfl⟩
  have hdrop : raw.drop 7 = '\n' :: (body ++ '\n' :: '`' :: '`' :: '`' :: []) := rfl
  have hdw : List.dropWhile jsWS ('\n' :: (body ++ '\n' :: '`' :: '`' :: '`' :: [])) =
      body ++ '\n' :: '`' :: '`' :: '`' :: [] := by
    rw [List.dropWhile_cons]
    simp only [(by decide : jsWS '\n' = true), if_true]
    rw [hbody, List.cons_append]
    exact dropWhile_cons_of_neg _ _ _ hb0
  have hsuf : ("```".toList).isSuffixOf (body ++ '\n' :: '`' :: '`' :: '`' :: []) = true := by
    refine List.isSuffixOf_iff_suffix.mpr ⟨body ++ ['\n'], ?_⟩
    simp
  have hdr : dropRightN (body ++ '\n' :: '`' :: '`' :: '`' :: []) 3 = body ++ ['\n'] := by
    have hsplit : body ++ '\n' :: '`' :: '`' :: '`' :: [] =
        (body ++ ['\n']) ++ "```".toList := by simp
    have h3 : ("```".toList).length = 3 := by decide
    rw [hsplit, ← h3, dropRightN_append]
  have htrim2 : trimChars (body ++ ['\n']) = body := by
    have hL2 : trimL (body ++ ['\n']) = body ++ ['\n'] := by
      rw [hbody, List.cons_append]
      exact dropWhile_cons_of_neg _ _ _ hb0
    have h1 : (body ++ ['\n']).reverse = '\n' :: body.reverse := by simp
    have hR2 : trimR (body ++ ['\n']) = body := by
      rw [trimR, h1, List.dropWhile_cons]
      simp only [(by decide : jsWS '\n' = true), if_true]
      rw [hR, List.reverse_reverse]
    rw [trimChars, hL2, hR2]
  unfold sanitize
  simp only [htrim, hpref3, hprefj, if_true, hdrop, hdw, hsuf, hdr, htrim2]

theorem sanitize_untagged_core (b0 : Char) (brest : List Char)
    (hb0 : jsWS b0 = false)
    (hR : (b0 :: brest).reverse.dropWhile jsWS = (b0 :: brest).reverse) :
    sanitize ('`' :: '`' :: '`' :: '\n' ::
      ((b0 :: brest) ++ '\n' :: '`' :: '`' :: '`' :: [])) =
      '`' :: '`' :: '`' :: '\n' :: (b0 :: brest) := by
  set body : List Char := b0 :: brest with hbody
  set raw : List Char := '`' :: '`' :: '`' :: '\n' ::
      (body ++ '\n' :: '`' :: '`' :: '`' :: []) with hraw
  have htrimL : trimL raw = raw :=
    dropWhile_cons_of_neg _ _ _ (by decide : jsWS '`' = false)
  have hsplitlast : raw = ('`' :: '`' :: '`' :: '\n' ::
      (body ++ '\n' :: '`' :: '`' :: [])) ++ ['`'] := by
    rw [hraw]
    simp
  have htrimR : trimR raw = raw := by
    rw [hsplitlast]
    exact trimR_append_last _ _ (by decide : jsWS '`' = false)
  have htrim : trimChars raw = raw := by
    rw [trimChars, htrimL, htrimR]
  have hpref3 : ("```".toList).isPrefixOf raw = true :=
    List.isPrefixOf_iff_prefix.mpr
      ⟨'\n' :: (body ++ '\n' :: '`' :: '`' :: '`' :: []), rfl⟩
  have hprefj : ("```json".toList).isPrefixOf raw = false := rfl
  have hsuf : ("```".toList).isSuffixOf raw = true := by
    refine List.isSuffixOf_iff_suffix.mpr
      ⟨'`' :: '`' :: '`' :: '\n' :: (body ++ ['\n']), ?_⟩
    rw [hraw]
    simp
  have hdr : dropRightN raw 3 = '`' :: '`' :: '`' :: '\n' :: (body ++ ['\n']) := by
    have hsplit : raw = ('`' :: '`' :: '`' :: '\n' :: (body ++ ['\n'])) ++ "```".toList := by
      rw [hraw]
      simp
    have h3 : ("```".toList).length = 3 := by decide
    rw [hsplit, ← h3, dropRightN_append]
  obtain ⟨c, Z, hrev⟩ : ∃ c Z, body.reverse = c :: Z := by
    cases hb : body.reverse with
    | nil =>
      have : body = [] := by
        have := congrArg List.reverse hb
        simpa using this
      exact absurd this (by rw [hbody]; exact List.cons_ne_nil b0 brest)
    | cons x xs => exact ⟨x, xs, rfl⟩
  have hc : jsWS c = false := by
    apply head_not_ws_of_dropWhile_eq jsWS c Z
    rw [← hrev]
    exact hR
  have htrim2 : trimChars ('`' :: '`' :: '`' :: '\n' :: (body ++ ['\n'])) =
      '`' :: '`' :: '`' :: '\n' :: body := by
    have hL2 : trimL ('`' :: '`' :: '`' :: '\n' :: (body ++ ['\n'])) =
        '`' :: '`' :: '`' :: '\n' :: (body ++ ['\n']) :=
      dropWhile_cons_of_neg _ _ _ (by decide : jsWS '`' = false)
    have h1 : ('`' :: '`' :: '`' :: '\n' :: (body ++ ['\n'])).reverse =
        '\n' :: (body.reverse ++ ['\n', '`', '`', '`']) := by
      simp
    have hR2 : trimR ('`' :: '`' :: '`' :: '\n' :: (body ++ ['\n'])) =
        '`' :: '`' :: '`' :: '\n' :: body := by
      rw [trimR, h1, List.dropWhile_cons]
      simp only [(by decide : jsWS '\n' = true), if_true]
      rw [hrev, List.cons_append]
      rw [dropWhile_cons_of_neg _ _ _ hc, ← List.cons_append, ← hrev]
      simp
    rw [trimChars, hL2, hR2]
  unfold sanitize
  simp only [htrim, hpref3, hprefj, if_true, Bool.false_eq_true, if_false, hsuf, hdr, htrim2]

/- ### Claim C6 -/

/-- Counterexample to claim C6: an untagged triple-backtick fence is NOT
fully stripped — the regex `/^```json\s*/` only removes an opening fence
tagged `json`, so for an untagged fence only the trailing fence is removed
and the opening fence line survives. -/
theorem sanitize_untagged_fence_keeps_opening :
    sanitize ("```\n\x7b\x7d\n```".toList) = "```\n\x7b\x7d".toList ∧
    sanitize ("```\n\x7b\x7d\n```".toList) ≠ "\x7b\x7d".toList := by
  decide

/-- Claim C6 as amended: the sanitizer trims; with no fence it returns the
trimmed input unchanged; both example round trips hold; a fence tagged
`json` around a whitespace-free body is fully stripped down to the body;
but an untagged fence keeps its opening fence line — only the trailing
fence is removed (and the result re-trimmed). -/
theorem sanitize_spec :
    (∀ raw : List Char, ("```".toList).isPrefixOf (trimChars raw) = false →
      sanitize raw = trimChars raw) ∧
    sanitize ("```json\n\x7b\"a\":1\x7d\n```".toList) = "\x7b\"a\":1\x7d".toList ∧
    sanitize ("\x7b\"a\":1\x7d".toList) = "\x7b\"a\":1\x7d".toList ∧
    (∀ body : List Char, body ≠ [] → body.dropWhile jsWS = body →
      body.reverse.dropWhile jsWS = body.reverse →
      sanitize ("```json\n".toList ++ body ++ "\n```".toList) = body ∧
      sanitize ("```\n".toList ++ body ++ "\n```".toList) = "```\n".toList ++ body) := by
  refine ⟨sanitize_no_fence, by decide, by decide, ?_⟩
  intro body hne hL hR
  obtain ⟨b0, brest, rfl⟩ : ∃ b0 brest, body = b0 :: brest := by
    cases body with
    | nil => exact absurd rfl hne
    | cons x xs => exact ⟨x, xs, rfl⟩
  have hb0 : jsWS b0 = false := head_not_ws_of_dropWhile_eq jsWS b0 brest hL
  constructor
  · have hconv : "```json\n".toList ++ (b0 :: brest) ++ "\n```".toList =
        '`' :: '`' :: '`' :: 'j' :: 's' :: 'o' :: 'n' :: '\n' ::
          ((b0 :: brest) ++ '\n' :: '`' :: '`' :: '`' :: []) := by
      simp only [show "```json\n".toList =
          '`' :: '`' :: '`' :: 'j' :: 's' :: 'o' :: 'n' :: '\n' :: [] by decide,
        show "\n```".toList = '\n' :: '`' :: '`' :: '`' :: [] by decide]
      simp [List.cons_append, List.append_assoc]
    rw [hconv]
    exact sanitize_tagged_core b0 brest hb0 hR
  · have hconv : "```\n".toList ++ (b0 :: brest) ++ "\n```".toList =
        '`' :: '`' :: '`' :: '\n' ::
          ((b0 :: brest) ++ '\n' :: '`' :: '`' :: '`' :: []) := by
      simp only [show "```\n".toList = '`' :: '`' :: '`' :: '\n' :: [] by decide,
        show "\n```".toList = '\n' :: '`' :: '`' :: '`' :: [] by decide]
      simp [List.cons_append, List.append_assoc]
    have hconv2 : "```\n".toList ++ (b0 :: brest) =
        '`' :: '`' :: '`' :: '\n' :: (b0 :: brest) := by
      simp only [show "```\n".toList = '`' :: '`' :: '`' :: '\n' :: [] by decide]
      simp
    rw [hconv, hconv2]
    exact sanitize_untagged_core b0 brest hb0 hR

/-- Witness for the amended C6 at concrete inputs. -/
theorem sanitize_spec_witness :
    sanitize ("hello".toList) = trimChars ("hello".toList) ∧
    sanitize ("```json\n".toList ++ "[1]".toList ++ "\n```".toList) = "[1]".toList :=
  have h := sanitize_spec
  ⟨h.1 ("hello".toList) (by decide),
    (h.2.2.2 ("[1]".toList) (by decide) (by decide) (by decide)).1⟩

end StudySpark

